import Mathlib

/-!
Verification of the NoLongerEvil-Thermostat server core against its
natural-language specification.

The development shallowly embeds the TypeScript sources:
JavaScript objects become association lists of string keys and JSON values,
`Date.now()` becomes an explicit time parameter, and the SQLite-backed state
table becomes an association list keyed by `(serial, object_key)`.
A key set to `undefined` by object spread is modelled as an absent key
(the values are observed through `JSON.stringify`, which drops such keys).
-/

/-- JSON-shaped values stored in device objects (numbers modelled as `Int`;
every number appearing in the claims is integral). -/
inductive JVal where
  | jnull : JVal
  | jbool : Bool → JVal
  | jnum : Int → JVal
  | jstr : String → JVal
  | jarr : List JVal → JVal
  | jobj : List (String × JVal) → JVal

/-- Fields of a JavaScript object: an association list from keys to values. -/
abbrev Fields := List (String × JVal)

/-- Property read `obj[k]`: the first binding of `k`, `none` = `undefined`. -/
def lookupF : Fields → String → Option JVal
  | [], _ => none
  | (k, v) :: rest, key => if k = key then some v else lookupF rest key

/-- Property write `obj[k] = v`: replace the first binding in place, else append
(matches JavaScript key-insertion order). -/
def upsertF : Fields → String → JVal → Fields
  | [], key, v => [(key, v)]
  | (k, w) :: rest, key, v =>
      if k = key then (key, v) :: rest else (k, w) :: upsertF rest key v

/-- Remove every binding of a key (models `obj[k] = undefined`, since such a
key is dropped again by `JSON.stringify`). -/
def removeF (f : Fields) (key : String) : Fields :=
  f.filter (fun kv => kv.1 != key)

/-- `obj[k] = v` where `v` may be `undefined`. -/
def setOpt (f : Fields) (key : String) : Option JVal → Fields
  | some v => upsertF f key v
  | none => removeF f key

/-- Property read through a `JVal` (`undefined` on non-objects). -/
def jlookup (v : JVal) (key : String) : Option JVal :=
  match v with
  | .jobj f => lookupF f key
  | _ => none

/-- The `isObject` test of `SQLite3Service.mergeValues`:
`val !== null && typeof val === "object" && !Array.isArray(val)`. -/
def isObject : JVal → Bool
  | .jobj _ => true
  | _ => false

/-- `result = {...current}` followed by the assignments `result[key] = …`. -/
def applyEntriesF : Fields → Fields → Fields
  | acc, [] => acc
  | acc, (k, v) :: rest => applyEntriesF (upsertF acc k v) rest

mutual
/-- `SQLite3Service.mergeValues` on two present values: if either side is a
non-mapping the incoming value replaces wholesale; two mappings merge
recursively per key (translated from `fanTimer.ts` lines 1470-1486). -/
def mergeV : JVal → JVal → JVal
  | .jobj cf, .jobj inf => .jobj (applyEntriesF cf (mergeEntries cf inf))
  | _, inc => inc

/-- The loop body of `mergeValues`: for each incoming key compute
`mergeValues(current[key], incoming[key])` (the incoming side is present). -/
def mergeEntries (cf : Fields) : Fields → Fields
  | [] => []
  | (k, v) :: rest =>
      (k, match lookupF cf k with
          | some c => mergeV c v
          | none => v) :: mergeEntries cf rest
end

/-- `SQLite3Service.mergeValues` including the `undefined` guards:
absent incoming returns current, absent current returns incoming. -/
def mergeValues : Option JVal → Option JVal → Option JVal
  | c, none => c
  | none, some i => some i
  | some c, some i => some (mergeV c i)

/-! ## Fan-timer business logic (`fanTimer.ts` lines 17-90) -/

/-- `isExplicitlyTurningOffFan`: the incoming value sets `fan_timer_timeout`
literally to `0` (strict equality `=== 0`) or `fan_control_state` literally to
`false` (strict equality `=== false`). -/
def isExplicitlyTurningOffFan (incomingValue : Fields) : Bool :=
  (match lookupF incomingValue "fan_timer_timeout" with
   | some (.jnum n) => decide (n = 0)
   | _ => false)
  ||
  (match lookupF incomingValue "fan_control_state" with
   | some (.jbool b) => decide (b = false)
   | _ => false)

/-- `shouldPreserveFanTimer`: never preserve on an explicit fan-off; otherwise
the existing `fan_timer_timeout` must be a number, strictly greater than
`floor(Date.now()/1000)` (passed as `nowSeconds`), and non-zero. -/
def shouldPreserveFanTimer (existingValue incomingValue : Fields)
    (nowSeconds : Int) : Bool :=
  if isExplicitlyTurningOffFan incomingValue then false
  else
    match lookupF existingValue "fan_timer_timeout" with
    | some (.jnum fanTimerTimeout) =>
        decide (fanTimerTimeout > nowSeconds) && decide (fanTimerTimeout ≠ 0)
    | _ => false

/-- The five fan-timer keys of `extractFanTimerState`, in source order. -/
def fanTimerKeys : List String :=
  ["fan_timer_timeout", "fan_control_state", "fan_timer_duration",
   "fan_current_speed", "fan_mode"]

/-- `extractFanTimerState`: read the five fan-timer properties (possibly
`undefined`) from a value. -/
def extractFanTimerState (value : Fields) : List (String × Option JVal) :=
  fanTimerKeys.map (fun k => (k, lookupF value k))

/-- `preserveFanTimer`: when preservation applies, spread the extracted
fan-timer state over the merged value; otherwise return the merged value. -/
def preserveFanTimer (mergedValue existingValue : Fields)
    (nowSeconds : Int) : Fields :=
  if shouldPreserveFanTimer existingValue mergedValue nowSeconds then
    (extractFanTimerState existingValue).foldl
      (fun acc kv => setOpt acc kv.1 kv.2) mergedValue
  else mergedValue

/-! ## The versioned object store (`SQLite3Service`, `fanTimer.ts` 481-558) -/

/-- One row of the `states` table for a given `(serial, object_key)`. -/
structure StoredObj where
  object_revision : Int
  object_timestamp : Int
  value : JVal
  updatedAt : Int

/-- The `states` table: rows keyed by `(serial, object_key)`. -/
abbrev StateStore := List ((String × String) × StoredObj)

/-- `SQLite3Service.getState`: the row matching serial and object key. -/
def getState : StateStore → String → String → Option StoredObj
  | [], _, _ => none
  | (sk, o) :: rest, serial, objectKey =>
      if sk = (serial, objectKey) then some o else getState rest serial objectKey

/-- SQL `UPDATE states SET … WHERE serial = ? and object_key = ?`:
replace every matching row. -/
def updateRow : StateStore → String → String → StoredObj → StateStore
  | [], _, _, _ => []
  | (sk, o) :: rest, serial, objectKey, newObj =>
      (sk, if sk = (serial, objectKey) then newObj else o)
        :: updateRow rest serial objectKey newObj

/-- The `?? {}` defaulting applied to both merge operands in `upsertState`
(`null` coalesces to the empty object). -/
def ifNullEmptyObj : JVal → JVal
  | .jnull => .jobj []
  | v => v

/-- `SQLite3Service.upsertState`: if a row exists, deep-merge the incoming
value into the stored one and update revision/timestamp/updatedAt; otherwise
insert the incoming data verbatim. `now` is the server clock `Date.now()`. -/
def upsertState (store : StateStore) (serial objectKey : String)
    (revision timestamp : Int) (value : JVal) (now : Int) : StateStore :=
  match getState store serial objectKey with
  | some currentState =>
      let mergedValue :=
        mergeV (ifNullEmptyObj currentState.value) (ifNullEmptyObj value)
      updateRow store serial objectKey
        ⟨revision, timestamp, mergedValue, now⟩
  | none =>
      store ++ [((serial, objectKey), ⟨revision, timestamp, value, now⟩)]

/-! ## Device availability watchdog (`fanTimer.ts` lines 107-280)

The per-serial entry of the `deviceStates` map, modelled for a single device;
`Date.now()` is an explicit argument. An emitted `Bool` is a call of the
availability-change handler with that availability value for this serial. -/

/-- The watchdog timeout of the `SubscriptionManager`-aware implementation:
5 minutes. -/
def TIMEOUT_MS : Nat := 300000

/-- The sweep interval of the `SubscriptionManager`-aware implementation:
30 seconds. -/
def CHECK_INTERVAL_MS : Nat := 30000

/-- `DeviceAvailabilityState` for one serial. -/
structure DeviceAvailabilityState where
  lastSeen : Nat
  isAvailable : Bool

/-- `markSeen` for one device: create available and notify on first sight,
refresh `lastSeen`, and notify when coming back online. -/
def markSeen : Option DeviceAvailabilityState → Nat →
    DeviceAvailabilityState × List Bool
  | none, now => (⟨now, true⟩, [true])
  | some s, now => (⟨now, true⟩, if s.isAvailable then [] else [true])

/-- `checkDeviceTimeouts` restricted to one device. `hasActiveSub` tells
whether the subscription manager lists this serial as active: if so its
`lastSeen` is refreshed (creating the entry when absent) and it is brought
online; afterwards an available device silent for more than `TIMEOUT_MS` is
marked unavailable with one offline notification, and an already-unavailable
device is skipped. -/
def checkDeviceTimeouts (hasActiveSub : Bool) :
    Option DeviceAvailabilityState → Nat →
    Option DeviceAvailabilityState × List Bool
  | none, now =>
      if hasActiveSub then (some ⟨now, true⟩, [true]) else (none, [])
  | some s, now =>
      let refreshed :=
        if hasActiveSub then
          ((⟨now, true⟩ : DeviceAvailabilityState),
           if s.isAvailable then ([] : List Bool) else [true])
        else (s, [])
      let s1 := refreshed.1
      if s1.isAvailable && decide (now - s1.lastSeen > TIMEOUT_MS) then
        (some ⟨s1.lastSeen, false⟩, refreshed.2 ++ [false])
      else (some s1, refreshed.2)

/-- `getAvailability`: devices are unavailable until first seen. -/
def getAvailability : Option DeviceAvailabilityState → Bool
  | none => false
  | some s => s.isAvailable

/-- An event in the life of one watched device: a heartbeat (`markSeen`) or a
periodic sweep with no active long-poll subscription, each with its
`Date.now()`. -/
inductive WatchdogEvent where
  | seen : Nat → WatchdogEvent
  | sweep : Nat → WatchdogEvent

/-- One event step of the watchdog for one device. -/
def watchdogStep (st : Option DeviceAvailabilityState) :
    WatchdogEvent → Option DeviceAvailabilityState × List Bool
  | .seen t => let r := markSeen st t; (some r.1, r.2)
  | .sweep t => checkDeviceTimeouts false st t

/-- Run a sequence of watchdog events, collecting handler notifications. -/
def watchdogRun (st : Option DeviceAvailabilityState) :
    List WatchdogEvent → Option DeviceAvailabilityState × List Bool
  | [] => (st, [])
  | e :: es =>
      let r := watchdogStep st e
      let rest := watchdogRun r.1 es
      (rest.1, r.2 ++ rest.2)

/-- The trace keeps heartbeats frequent enough: whenever a sweep occurs while
the device entry exists, no more than `TIMEOUT_MS` has elapsed since the
device was last seen. -/
def timelyTrace : Option DeviceAvailabilityState → List WatchdogEvent → Prop
  | _, [] => True
  | st, e :: es =>
      (match e, st with
       | .sweep t, some s => t - s.lastSeen ≤ TIMEOUT_MS
       | _, _ => True) ∧ timelyTrace (watchdogStep st e).1 es

/-! ## Watchdog constants of the second implementation
(`MqttIntegration.ts` source file, lines 837-838) -/

namespace MqttFileWatchdog

/-- The second watchdog implementation's timeout: 125 seconds. -/
def TIMEOUT_MS : Nat := 125000

/-- The second watchdog implementation's sweep interval: 10 seconds. -/
def CHECK_INTERVAL_MS : Nat := 10000

end MqttFileWatchdog

/-! ## JavaScript coercions used by the reconciler -/

/-- JavaScript truthiness of a present value. -/
def jsTruthy : JVal → Bool
  | .jnull => false
  | .jbool b => b
  | .jnum n => n != 0
  | .jstr s => s != ""
  | .jarr _ => true
  | .jobj _ => true

/-- `Boolean(x)` where `x` may be `undefined`. -/
def jsTruthyOpt : Option JVal → Bool
  | some v => jsTruthy v
  | none => false

/-- `Number(x) || 0` where `x` may be `undefined` (non-numeric strings and
compound values coerce to `NaN`, hence `0`; integral numeric strings are
parsed). -/
def jsNumOr0 : Option JVal → Int
  | some (.jnum n) => n
  | some (.jbool b) => if b then 1 else 0
  | some .jnull => 0
  | some (.jstr s) => (s.toInt?).getD 0
  | _ => 0

/-- `String(x)` where `x` may be `undefined` (array/object stringification is
approximated; no claim depends on it). -/
def jsString : Option JVal → String
  | some (.jstr s) => s
  | some (.jnum n) => toString n
  | some (.jbool b) => if b then "true" else "false"
  | some .jnull => "null"
  | some (.jarr _) => ""
  | some (.jobj _) => "[object Object]"
  | none => "undefined"

/-- The fields of `{...v}`: spreading a non-object yields no fields
(string spread is approximated likewise; no claim spreads a string). -/
def objFieldsOf : JVal → Fields
  | .jobj f => f
  | _ => []

/-! ## `getAllStateForDevice` and the away reconciler
(`fanTimer.ts` lines 643-678 and 840-934) -/

/-- `SQLite3Service.getAllStateForDevice(serial, object_key)`: a
`DeviceStateStore` object keyed by serial, whose entry is a bucket keyed by
object key holding the row with its metadata; `{}` when no row matches. -/
def getAllStateForDevice (store : StateStore) (serial objectKey : String) :
    JVal :=
  match getState store serial objectKey with
  | none => .jobj []
  | some row =>
      .jobj [(serial, .jobj [(objectKey,
        .jobj [("object_key", .jstr objectKey),
               ("object_revision", .jnum row.object_revision),
               ("object_timestamp", .jnum row.object_timestamp),
               ("value", row.value),
               ("updatedAt", .jnum row.updatedAt)])])]

/-- The accumulator of the device-scanning loop of `updateUserAwayStatus`. -/
structure AwayScan where
  allAway : Bool
  anyDeviceReported : Bool
  mostRecentAwayTimestamp : Int
  mostRecentAwaySetter : Option String
  hasVacationMode : Bool
  mostRecentManualAwayTimestamp : Int
  broken : Bool

/-- Initial accumulator of the scanning loop. -/
def initAwayScan : AwayScan :=
  ⟨true, false, 0, none, false, 0, false⟩

/-- One iteration of the first loop of `updateUserAwayStatus`: read
`getAllStateForDevice(serial, device.serial)` and inspect its `.value`
property (which, on the store-shaped result, is the top-level `value` key). -/
def awayScanStep (store : StateStore) (acc : AwayScan) (serial : String) :
    AwayScan :=
  if acc.broken then acc
  else
    let deviceState := getAllStateForDevice store serial ("device." ++ serial)
    match jlookup deviceState "value" with
    | some v =>
      if jsTruthy v then
        let away := jsTruthyOpt (jlookup v "away")
        let awayTimestamp := jsNumOr0 (jlookup v "away_timestamp")
        let awaySetter := jsString (jlookup v "away_setter")
        let vacationMode := jsTruthyOpt (jlookup v "vacation_mode")
        let manualAwayTimestamp := jsNumOr0 (jlookup v "manual_away_timestamp")
        let hasVac := acc.hasVacationMode || vacationMode
        let mostTs :=
          if awayTimestamp > acc.mostRecentAwayTimestamp then awayTimestamp
          else acc.mostRecentAwayTimestamp
        let manualPair :=
          if manualAwayTimestamp > acc.mostRecentManualAwayTimestamp then
            (manualAwayTimestamp, some awaySetter)
          else (acc.mostRecentManualAwayTimestamp, acc.mostRecentAwaySetter)
        if !away then
          ⟨false, true, mostTs, manualPair.2, hasVac, manualPair.1, true⟩
        else
          ⟨acc.allAway, true, mostTs, manualPair.2, hasVac, manualPair.1,
           false⟩
      else acc
    | none => acc

/-- One iteration of the write-back loop of `updateUserAwayStatus`: read the
existing user state via `getAllStateForDevice`, build the updated value over
its `.value || {}`, and upsert with revision
`(Number(existing.object_revision) || 0) + 1`. -/
def awayWriteStep (userId : String) (userAway hasVac : Bool)
    (mostTs mostManual : Int) (setter : Option String) (nowMs : Int)
    (store : StateStore) (serial : String) : StateStore :=
  let userStateKey := "user." ++ userId
  let existingUserState := getAllStateForDevice store serial userStateKey
  let currentValue :=
    match jlookup existingUserState "value" with
    | some v => if jsTruthy v then v else .jobj []
    | none => .jobj []
  let f1 := upsertF (objFieldsOf currentValue) "away" (.jbool userAway)
  let f2 := upsertF f1 "vacation_mode" (.jbool hasVac)
  let f3 := if mostTs > 0 then upsertF f2 "away_timestamp" (.jnum mostTs)
            else f2
  let f4 := match setter with
            | some s => upsertF f3 "away_setter" (.jstr s)
            | none => f3
  let f5 := if mostManual > 0 then
              upsertF f4 "manual_away_timestamp" (.jnum mostManual)
            else f4
  let rev := jsNumOr0 (jlookup existingUserState "object_revision") + 1
  upsertState store serial userStateKey rev nowMs (.jobj f5) nowMs

/-- `SQLite3Service.updateUserAwayStatus`, with the owned device serials (in
`getOwnerDevices` order) and the clock passed explicitly. The leading
`user_` tag of the user id is stripped as in the source. -/
def updateUserAwayStatus (userId : String) (ownedSerials : List String)
    (store : StateStore) (nowMs : Int) : StateStore :=
  let uid := if userId.startsWith "user_" then userId.drop 5 else userId
  if ownedSerials.isEmpty then store
  else
    let scan := ownedSerials.foldl (awayScanStep store) initAwayScan
    let userAway := scan.anyDeviceReported && scan.allAway
    ownedSerials.foldl
      (awayWriteStep uid userAway scan.hasVacationMode
        scan.mostRecentAwayTimestamp scan.mostRecentManualAwayTimestamp
        scan.mostRecentAwaySetter nowMs)
      store

/-! ## MQTT command ingestion (`MqttIntegration.ts` lines 300-457) -/

/-- The result of `parseCommandTopic` on a raw command topic. -/
structure ParsedCommandTopic where
  serial : String
  objectType : String
  field : String

/-- `MqttIntegration.handleCommand` for a raw command, after topic parsing and
payload decoding (both passed in: `parsed` is `parseCommandTopic`'s result,
`value` the decoded payload). The write goes through the device state
service's upsert, which commits via the store's `upsertState`. Unparsable
topics, serials outside the user's device set, and missing target objects
leave the store untouched. -/
def handleCommand (userDeviceSerials : List String)
    (parsed : Option ParsedCommandTopic) (value : JVal)
    (store : StateStore) (nowMs : Int) : StateStore :=
  match parsed with
  | none => store
  | some p =>
    if p.serial ∈ userDeviceSerials then
      let objectKey := p.objectType ++ "." ++ p.serial
      match getState store p.serial objectKey with
      | none => store
      | some currentObj =>
          let newValue :=
            JVal.jobj (upsertF (objFieldsOf currentObj.value) p.field value)
          upsertState store p.serial objectKey
            (currentObj.object_revision + 1) nowMs newValue nowMs
    else store

/-- `MqttIntegration.handleHomeAssistantCommand`: `parsed` is the
serial/command pair matched from the topic (or `none` when the regular
expression fails). The per-command dispatch body relies on helper modules
outside the provided sources and is abstracted as the continuation `run`;
it executes only when the serial is authorized and both the `device` and
`shared` objects exist. -/
def handleHomeAssistantCommand (userDeviceSerials : List String)
    (parsed : Option (String × String)) (run : StateStore → StateStore)
    (store : StateStore) : StateStore :=
  match parsed with
  | none => store
  | some (serial, _) =>
    if serial ∈ userDeviceSerials then
      match getState store serial ("device." ++ serial),
            getState store serial ("shared." ++ serial) with
      | some _, some _ => run store
      | _, _ => store
    else store

/-! ## API-key permission check (`fanTimer.ts` lines 1327-1370) -/

/-- `SQLite3Service.checkApiKeyPermission`, with the database reads passed
explicitly: `ownerOf` is `getDeviceOwner(serial)?.userId` and `sharedPerms`
is the permission list of `getDeviceSharedWithMe(userId, serial)` when a
share exists. -/
def checkApiKeyPermission (userId serial : String)
    (requiredScopes : List String)
    (permSerials permScopes : List String)
    (ownerOf : Option String) (sharedPerms : Option (List String)) : Bool :=
  if 0 < permSerials.length ∧ serial ∈ permSerials then false
  else if ownerOf = some userId then
    requiredScopes.all (fun scope => permScopes.contains scope)
  else
    match sharedPerms with
    | some sp =>
        let hasSharePermissions := requiredScopes.all (fun scope =>
          if scope = "read" then true
          else if scope = "write" || scope = "control" then
            sp.contains "control"
          else false)
        let hasKeyScope :=
          requiredScopes.all (fun scope => permScopes.contains scope)
        hasSharePermissions && hasKeyScope
    | none => false

/-! ## Specification-side definitions and concrete inputs -/

/-- Follows the spec's words (§4.A): preservation applies iff the existing
`fan_timer_timeout` is a number, non-zero and strictly greater than
`floor(now_ms/1000)`, and the merged/incoming value is not an explicit
fan-off (`fan_timer_timeout` literally `0` or `fan_control_state` literally
`false`). -/
def specFanPreservationApplies (merged existing : Fields)
    (nowSeconds : Int) : Bool :=
  (match lookupF existing "fan_timer_timeout" with
   | some (.jnum t) => decide (t ≠ 0) && decide (t > nowSeconds)
   | _ => false)
  &&
  !((match lookupF merged "fan_timer_timeout" with
     | some (.jnum n) => decide (n = 0)
     | _ => false)
    ||
    (match lookupF merged "fan_control_state" with
     | some (.jbool b) => decide (b = false)
     | _ => false))

/-- Stored value with an active fan timer, for the C1 failing input. -/
def fanCexExisting : Fields :=
  [("fan_timer_timeout", .jnum 9999999999), ("fan_control_state", .jbool true)]

/-- Incoming write that is not an explicit fan-off but carries a stale
`fan_timer_timeout`, for the C1 failing input. -/
def fanCexIncoming : Fields := [("fan_timer_timeout", .jnum 500)]

/-- Store holding the C1 failing input under `(A, device.A)`. -/
def fanCexStore : StateStore :=
  [(("A", "device.A"), ⟨1, 1000, .jobj fanCexExisting, 0⟩)]

/-- Device value for the C5 failing input: away with vacation mode on. -/
def awayCexDeviceVal : JVal :=
  .jobj [("away", .jbool true), ("vacation_mode", .jbool true),
         ("away_timestamp", .jnum 200)]

/-- Store for the C5 failing input: one owned device `A` that is away plus an
existing `user.u` object at revision 3. -/
def awayCexStore : StateStore :=
  [(("A", "device.A"), ⟨1, 1000, awayCexDeviceVal, 0⟩),
   (("A", "user.u"), ⟨3, 0, .jobj [], 0⟩)]

/-! ## Lemmas about field lookup and update -/

theorem lookupF_upsertF (f : Fields) (key k : String) (v : JVal) :
    lookupF (upsertF f key v) k = if k = key then some v else lookupF f k := by
  induction f with
  | nil => simp [upsertF, lookupF, eq_comm]
  | cons hd tl ih =>
      obtain ⟨k1, w⟩ := hd
      by_cases h1 : k1 = key <;> by_cases h2 : k1 = k <;>
        simp_all [upsertF, lookupF, eq_comm]

theorem lookupF_removeF (f : Fields) (key k : String) :
    lookupF (removeF f key) k = if k = key then none else lookupF f k := by
  induction f with
  | nil => simp [removeF, lookupF]
  | cons hd tl ih =>
      obtain ⟨k1, w⟩ := hd
      by_cases h1 : k1 = key
      · subst h1
        have hdrop : removeF ((k1, w) :: tl) k1 = removeF tl k1 := by
          simp [removeF, List.filter_cons]
        rw [hdrop, ih]
        by_cases h2 : k = k1
        · simp [h2]
        · have h3 : ¬ k1 = k := fun hh => h2 hh.symm
          simp [h2, lookupF, h3]
      · have hkeep : removeF ((k1, w) :: tl) key = (k1, w) :: removeF tl key := by
          simp [removeF, List.filter_cons, bne_iff_ne, h1]
        rw [hkeep]
        by_cases h2 : k1 = k
        · subst h2
          have h3 : ¬ k1 = key := h1
          simp [lookupF, h3]
        · simp [lookupF, h2, ih]

theorem lookupF_setOpt (f : Fields) (key k : String) (o : Option JVal) :
    lookupF (setOpt f key o) k = if k = key then o else lookupF f k := by
  cases o <;> simp [setOpt, lookupF_upsertF, lookupF_removeF]

theorem lookupF_eq_none_of_not_mem (f : Fields) (k : String)
    (h : k ∉ f.map Prod.fst) : lookupF f k = none := by
  induction f with
  | nil => rfl
  | cons hd tl ih =>
      obtain ⟨k1, w⟩ := hd
      simp only [List.map, List.mem_cons, not_or] at h
      have h1 : ¬ k1 = k := fun hh => h.1 hh.symm
      simp [lookupF, h1, ih h.2]

theorem lookupF_applyEntriesF (entries : Fields) (acc : Fields) (k : String)
    (h : (entries.map Prod.fst).Nodup) :
    lookupF (applyEntriesF acc entries) k =
      match lookupF entries k with
      | some v => some v
      | none => lookupF acc k := by
  induction entries generalizing acc with
  | nil => simp [applyEntriesF, lookupF]
  | cons hd tl ih =>
      obtain ⟨k1, v1⟩ := hd
      simp only [List.map, List.nodup_cons] at h
      simp only [applyEntriesF]
      rw [ih _ h.2]
      by_cases h1 : k1 = k
      · subst h1
        rw [lookupF_eq_none_of_not_mem tl k1 h.1]
        simp [lookupF, lookupF_upsertF]
      · have h2 : ¬ (k = k1) := fun hh => h1 hh.symm
        cases htl : lookupF tl k <;>
          simp [lookupF, h1, htl, lookupF_upsertF, h2]

theorem lookupF_mergeEntries (cf inf : Fields) (k : String) :
    lookupF (mergeEntries cf inf) k =
      (lookupF inf k).map (fun v =>
        match lookupF cf k with
        | some c => mergeV c v
        | none => v) := by
  induction inf with
  | nil => simp [mergeEntries, lookupF]
  | cons hd tl ih =>
      obtain ⟨k1, v1⟩ := hd
      by_cases h1 : k1 = k
      · subst h1; simp [mergeEntries, lookupF]
      · simp [mergeEntries, lookupF, h1, ih]

theorem map_fst_mergeEntries (cf inf : Fields) :
    (mergeEntries cf inf).map Prod.fst = inf.map Prod.fst := by
  induction inf with
  | nil => rfl
  | cons hd tl ih =>
      obtain ⟨k1, v1⟩ := hd
      simp [mergeEntries, ih]

/-! ## Lemmas about the state store -/

theorem getState_append_none {store : StateStore} {s k : String}
    (h : getState store s k = none) (o : StoredObj) :
    getState (store ++ [((s, k), o)]) s k = some o := by
  induction store with
  | nil => simp [getState]
  | cons hd tl ih =>
      obtain ⟨sk, r⟩ := hd
      by_cases hsk : sk = (s, k)
      · simp [getState, hsk] at h
      · simp only [getState, if_neg hsk, List.cons_append] at h ⊢
        exact ih h

theorem getState_updateRow {store : StateStore} {s k : String} {o : StoredObj}
    (h : getState store s k = some o) (n : StoredObj) :
    getState (updateRow store s k n) s k = some n := by
  induction store with
  | nil => simp [getState] at h
  | cons hd tl ih =>
      obtain ⟨sk, r⟩ := hd
      by_cases hsk : sk = (s, k)
      · simp [getState, updateRow, hsk]
      · simp only [getState, updateRow, if_neg hsk] at h ⊢
        exact ih h

/-! ## Lemmas about fan-timer preservation -/

set_option linter.unreachableTactic false in
set_option linter.unusedTactic false in
theorem shouldPreserve_eq_spec (m e : Fields) (now : Int) :
    shouldPreserveFanTimer e m now = specFanPreservationApplies m e now := by
  unfold shouldPreserveFanTimer specFanPreservationApplies
    isExplicitlyTurningOffFan
  cases h1 : lookupF e "fan_timer_timeout" with
  | none =>
      cases h2 : lookupF m "fan_timer_timeout" <;>
        cases h3 : lookupF m "fan_control_state" <;>
          simp <;> split <;> simp
  | some v =>
      cases v <;>
        cases h2 : lookupF m "fan_timer_timeout" <;>
          cases h3 : lookupF m "fan_control_state" <;>
            simp <;> (try split) <;> simp [Bool.and_comm] <;>
              (try split) <;> simp [Bool.and_comm]

/-! ## Claim theorems -/

/-- C1: the claim says every upsert over a stored value with an active fan
timer, whose incoming value is not an explicit fan-off, retains the stored
fan-timer fields. The store's `upsertState` never invokes `preserveFanTimer`:
at the failing input (stored `fan_timer_timeout = 9999999999` active at
`now = 1000` seconds, incoming `{fan_timer_timeout: 500}` which is not an
explicit fan-off) the deep merge stores `500`, while the fan-timer module's
own preservation rule would have retained `9999999999`. -/
theorem upsertState_drops_active_fan_timer :
    shouldPreserveFanTimer fanCexExisting fanCexIncoming 1000 = true ∧
    isExplicitlyTurningOffFan fanCexIncoming = false ∧
    (getState (upsertState fanCexStore "A" "device.A" 2 1100
        (.jobj fanCexIncoming) 2000) "A" "device.A").map
      (fun o => jlookup o.value "fan_timer_timeout")
      = some (some (.jnum 500)) ∧
    lookupF (preserveFanTimer
        (objFieldsOf (mergeV (.jobj fanCexExisting) (.jobj fanCexIncoming)))
        fanCexExisting 1000) "fan_timer_timeout"
      = some (.jnum 9999999999) :=
  ⟨rfl, rfl, rfl, rfl⟩

/-- C2 counterexample: the claim says the stored `object_revision` never
decreases and that an incoming lower revision never lowers the stored one.
Upserting revision 5 and then revision 2 on the same key leaves the stored
revision at 2, strictly below 5. -/
theorem upsertState_revision_regress_cex :
    (getState (upsertState (upsertState [] "A" "device.A" 5 1000 (.jobj []) 0)
        "A" "device.A" 2 1100 (.jobj []) 0) "A" "device.A").map
      StoredObj.object_revision = some 2 ∧ (2 : Int) < 5 :=
  ⟨rfl, by decide⟩

/-- C2 amended: on every upsert (update and insert branch alike) the store
records exactly the caller-supplied incoming revision; a lower incoming
revision therefore lowers the stored revision. -/
theorem upsertState_records_incoming_revision
    (store : StateStore) (serial objectKey : String) (rev ts : Int)
    (v : JVal) (now : Int) :
    (getState (upsertState store serial objectKey rev ts v now)
        serial objectKey).map StoredObj.object_revision = some rev := by
  unfold upsertState
  cases h : getState store serial objectKey with
  | none =>
      simp only []
      rw [getState_append_none h]
      rfl
  | some cur =>
      simp only []
      rw [getState_updateRow h]
      rfl

/-- C3: `preserveFanTimer` applies exactly when the existing
`fan_timer_timeout` is a number, non-zero and strictly greater than
`floor(now/1000)`, and the merged value is not an explicit fan-off; when it
applies, the five fan-timer keys are taken from the existing value and every
other key of the merged value is unchanged; when it does not apply, the
result is the merged value. -/
theorem preserveFanTimer_spec (m e : Fields) (now : Int) :
    shouldPreserveFanTimer e m now = specFanPreservationApplies m e now ∧
    (specFanPreservationApplies m e now = true →
      ∀ k, lookupF (preserveFanTimer m e now) k =
        if k ∈ fanTimerKeys then lookupF e k else lookupF m k) ∧
    (specFanPreservationApplies m e now = false →
      preserveFanTimer m e now = m) := by
  refine ⟨shouldPreserve_eq_spec m e now, ?_, ?_⟩
  · intro hc k
    unfold preserveFanTimer
    rw [shouldPreserve_eq_spec, hc]
    simp only [if_true]
    simp only [extractFanTimerState, fanTimerKeys, List.map, List.foldl]
    simp only [lookupF_setOpt]
    by_cases h1 : k = "fan_timer_timeout" <;>
      by_cases h2 : k = "fan_control_state" <;>
        by_cases h3 : k = "fan_timer_duration" <;>
          by_cases h4 : k = "fan_current_speed" <;>
            by_cases h5 : k = "fan_mode" <;>
              simp_all [List.mem_cons]
  · intro hc
    unfold preserveFanTimer
    rw [shouldPreserve_eq_spec, hc]
    simp

/-- C3 witness: a concrete active fan timer with a non-fan-off merged value
(positive branch at the key `fan_control_state`), and a concrete expired
timer (negative branch). -/
theorem preserveFanTimer_spec_witness :
    (specFanPreservationApplies [("temperature", .jnum 21)]
        [("fan_timer_timeout", .jnum 100), ("fan_control_state", .jbool true)]
        50 = true) ∧
    lookupF (preserveFanTimer [("temperature", .jnum 21)]
        [("fan_timer_timeout", .jnum 100), ("fan_control_state", .jbool true)]
        50) "fan_control_state"
      = (if "fan_control_state" ∈ fanTimerKeys then
          lookupF [("fan_timer_timeout", .jnum 100),
                   ("fan_control_state", .jbool true)] "fan_control_state"
        else lookupF [("temperature", .jnum 21)] "fan_control_state") ∧
    (specFanPreservationApplies [("temperature", .jnum 21)]
        [("fan_timer_timeout", .jnum 100)] 200 = false) ∧
    preserveFanTimer [("temperature", .jnum 21)]
        [("fan_timer_timeout", .jnum 100)] 200 = [("temperature", .jnum 21)] :=
  ⟨rfl,
   (preserveFanTimer_spec [("temperature", .jnum 21)]
      [("fan_timer_timeout", .jnum 100), ("fan_control_state", .jbool true)]
      50).2.1 rfl "fan_control_state",
   rfl,
   (preserveFanTimer_spec [("temperature", .jnum 21)]
      [("fan_timer_timeout", .jnum 100)] 200).2.2 rfl⟩

/-- C4: `mergeValues` satisfies the deep-merge rule: absent incoming keeps
the current value, absent current takes the incoming value, a non-mapping on
either side is replaced wholesale by the incoming value, and for two
mappings (object keys are unique in JavaScript, hence the `Nodup`
hypothesis) the value at each key of the result is the recursive merge of
the two sides' values at that key — which also makes the key set the union
of the two key sets. -/
theorem mergeValues_spec :
    (∀ c, mergeValues c none = c) ∧
    (∀ i, mergeValues none (some i) = some i) ∧
    (∀ c i, isObject c = false ∨ isObject i = false → mergeV c i = i) ∧
    (∀ cf inf k, (inf.map Prod.fst).Nodup →
      jlookup (mergeV (.jobj cf) (.jobj inf)) k =
        mergeValues (lookupF cf k) (lookupF inf k)) := by
  refine ⟨fun c => by cases c <;> rfl, fun i => rfl, ?_, ?_⟩
  · intro c i h
    cases c <;> cases i <;> simp_all [mergeV, isObject]
  · intro cf inf k hnd
    simp only [mergeV, jlookup]
    rw [lookupF_applyEntriesF _ _ _ (by rw [map_fst_mergeEntries]; exact hnd)]
    rw [lookupF_mergeEntries]
    cases hi : lookupF inf k <;> cases hc : lookupF cf k <;>
      simp [mergeValues]

/-- C4 witness: a scalar replaced wholesale and a two-sided object merge,
looked up at a current-only key, an incoming-only key and a shared key. -/
theorem mergeValues_spec_witness :
    mergeV (.jnum 1) (.jarr [.jnum 2]) = .jarr [.jnum 2] ∧
    jlookup (mergeV (.jobj [("a", .jnum 1), ("b", .jnum 2)])
        (.jobj [("b", .jnum 3), ("c", .jnum 4)])) "a"
      = mergeValues (some (.jnum 1)) none ∧
    jlookup (mergeV (.jobj [("a", .jnum 1), ("b", .jnum 2)])
        (.jobj [("b", .jnum 3), ("c", .jnum 4)])) "b"
      = mergeValues (some (.jnum 2)) (some (.jnum 3)) ∧
    jlookup (mergeV (.jobj [("a", .jnum 1), ("b", .jnum 2)])
        (.jobj [("b", .jnum 3), ("c", .jnum 4)])) "c"
      = mergeValues none (some (.jnum 4)) :=
  ⟨mergeValues_spec.2.2.1 (.jnum 1) (.jarr [.jnum 2]) (Or.inl rfl),
   mergeValues_spec.2.2.2 [("a", .jnum 1), ("b", .jnum 2)]
     [("b", .jnum 3), ("c", .jnum 4)] "a" (by decide),
   mergeValues_spec.2.2.2 [("a", .jnum 1), ("b", .jnum 2)]
     [("b", .jnum 3), ("c", .jnum 4)] "b" (by decide),
   mergeValues_spec.2.2.2 [("a", .jnum 1), ("b", .jnum 2)]
     [("b", .jnum 3), ("c", .jnum 4)] "c" (by decide)⟩

/-- C5: the claim says the away reconciler writes `away = true` when every
reporting owned device is away and `vacation_mode = true` when some owned
device has vacation mode. In the source, `updateUserAwayStatus` reads
`deviceState.value` on the store-shaped result of `getAllStateForDevice`
(which is keyed by serial, not a row), so no device ever counts as having
reported: at the failing input — user `u` owning device `A` whose
`device.A` value has `away = true`, `vacation_mode = true`,
`away_timestamp = 200`, with `user.u` stored at revision 3 — the code writes
`{away: false, vacation_mode: false}` at revision 1. -/
theorem updateUserAwayStatus_ignores_device_state :
    jlookup awayCexDeviceVal "away" = some (.jbool true) ∧
    jlookup awayCexDeviceVal "vacation_mode" = some (.jbool true) ∧
    (getState (updateUserAwayStatus "u" ["A"] awayCexStore 5000)
        "A" "user.u").map
      (fun o => (jlookup o.value "away", jlookup o.value "vacation_mode",
                 o.object_revision))
      = some (some (.jbool false), some (.jbool false), 1) :=
  ⟨rfl, rfl, rfl⟩

/-- C6: an MQTT command — raw or Home-Assistant derived — whose serial is not
in the integration user's device set is ignored: the state store is left
unchanged and no upsert is performed (for the derived handler this holds for
every possible command dispatch body `run`). -/
theorem handleCommand_unauthorized_ignored :
    (∀ (serials : List String) (p : ParsedCommandTopic) (v : JVal)
       (store : StateStore) (now : Int), p.serial ∉ serials →
        handleCommand serials (some p) v store now = store) ∧
    (∀ (serials : List String) (serial cmd : String)
       (run : StateStore → StateStore) (store : StateStore),
        serial ∉ serials →
        handleHomeAssistantCommand serials (some (serial, cmd)) run store
          = store) := by
  constructor
  · intro serials p v store now h
    simp [handleCommand, h]
  · intro serials serial cmd run store h
    simp [handleHomeAssistantCommand, h]

/-- C6 witness: a command for serial `B` under a device set containing only
`A` leaves a concrete store untouched, on both command paths. -/
theorem handleCommand_unauthorized_ignored_witness :
    handleCommand ["A"] (some ⟨"B", "device", "temperature"⟩) (.jnum 21)
        fanCexStore 0 = fanCexStore ∧
    handleHomeAssistantCommand ["A"] (some ("B", "mode"))
        (fun _ => []) fanCexStore = fanCexStore :=
  ⟨handleCommand_unauthorized_ignored.1 ["A"]
     ⟨"B", "device", "temperature"⟩ (.jnum 21) fanCexStore 0 (by decide),
   handleCommand_unauthorized_ignored.2 ["A"] "B" "mode"
     (fun _ => []) fanCexStore (by decide)⟩

/-- C7: for one watched device, (i) along any trace in which every sweep
happens within `TIMEOUT_MS` of the moment the device was last seen, an
available device stays available; (ii) a sweep later than
`TIMEOUT_MS` after `lastSeen` marks an available device unavailable and
emits exactly one offline notification; (iii) further sweeps on an
unavailable device change nothing and emit nothing; (iv) a later `markSeen`
brings it back online with exactly one online notification. -/
theorem watchdog_availability_spec :
    (∀ st es, getAvailability st = true → timelyTrace st es →
      getAvailability (watchdogRun st es).1 = true) ∧
    (∀ ls t, ls + TIMEOUT_MS < t →
      watchdogStep (some ⟨ls, true⟩) (.sweep t) = (some ⟨ls, false⟩, [false])) ∧
    (∀ ls t,
      watchdogStep (some ⟨ls, false⟩) (.sweep t) = (some ⟨ls, false⟩, [])) ∧
    (∀ ls t,
      watchdogStep (some ⟨ls, false⟩) (.seen t) = (some ⟨t, true⟩, [true])) := by
  refine ⟨?_, ?_, ?_, ?_⟩
  · intro st es h ht
    induction es generalizing st with
    | nil => simpa [watchdogRun] using h
    | cons e tl ih =>
        obtain ⟨hhead, htail⟩ := ht
        simp only [watchdogRun]
        apply ih _ _ htail
        cases st with
        | none => simp [getAvailability] at h
        | some s =>
            cases e with
            | seen t => simp [watchdogStep, markSeen, getAvailability]
            | sweep t =>
                have hs : s.isAvailable = true := h
                have hle : ¬ (t - s.lastSeen > TIMEOUT_MS) :=
                  Nat.not_lt.mpr hhead
                simp [watchdogStep, checkDeviceTimeouts, hle,
                      getAvailability, hs]
  · intro ls t hlt
    have hgt : t - ls > TIMEOUT_MS := by omega
    simp [watchdogStep, checkDeviceTimeouts, hgt]
  · intro ls t
    simp [watchdogStep, checkDeviceTimeouts]
  · intro ls t
    simp [watchdogStep, markSeen]

/-- C7 witness: a device seen at 0 stays available over timely heartbeats
and sweeps; a sweep at `TIMEOUT_MS + 1` ms of silence takes it offline with
one notification; a sweep on the offline device emits nothing; a heartbeat
brings it back with one notification. -/
theorem watchdog_availability_spec_witness :
    getAvailability (watchdogRun (some ⟨0, true⟩)
      [.sweep 200000, .seen 250000, .sweep 500000]).1 = true ∧
    watchdogStep (some ⟨0, true⟩) (.sweep 300001)
      = (some ⟨0, false⟩, [false]) ∧
    watchdogStep (some ⟨0, false⟩) (.sweep 330001) = (some ⟨0, false⟩, []) ∧
    watchdogStep (some ⟨0, false⟩) (.seen 400000)
      = (some ⟨400000, true⟩, [true]) :=
  ⟨watchdog_availability_spec.1 (some ⟨0, true⟩)
     [.sweep 200000, .seen 250000, .sweep 500000] rfl
     (by simp [timelyTrace, watchdogStep, markSeen, checkDeviceTimeouts,
               TIMEOUT_MS]),
   watchdog_availability_spec.2.1 0 300001 (by decide),
   watchdog_availability_spec.2.2.1 0 330001,
   watchdog_availability_spec.2.2.2 0 400000⟩

/-- C8 counterexample: the claim says every watchdog implementation uses
`TIMEOUT_MS = 300000` and `CHECK_INTERVAL_MS = 30000`, but the second
implementation (in the MQTT integration source file) uses `125000` and
`10000`. -/
theorem mqtt_watchdog_constants_cex :
    MqttFileWatchdog.TIMEOUT_MS = 125000 ∧
    MqttFileWatchdog.TIMEOUT_MS ≠ 300000 ∧
    MqttFileWatchdog.CHECK_INTERVAL_MS = 10000 ∧
    MqttFileWatchdog.CHECK_INTERVAL_MS ≠ 30000 := by
  refine ⟨rfl, ?_, rfl, ?_⟩ <;> decide

/-- C8 amended: the `SubscriptionManager`-aware watchdog uses
`TIMEOUT_MS = 300000` and `CHECK_INTERVAL_MS = 30000`; the second watchdog
implementation uses `TIMEOUT_MS = 125000` and `CHECK_INTERVAL_MS = 10000`. -/
theorem watchdog_constants_amended :
    TIMEOUT_MS = 300000 ∧ CHECK_INTERVAL_MS = 30000 ∧
    MqttFileWatchdog.TIMEOUT_MS = 125000 ∧
    MqttFileWatchdog.CHECK_INTERVAL_MS = 10000 :=
  ⟨rfl, rfl, rfl, rfl⟩

/-- C9: `checkApiKeyPermission` returns `false` whenever the API key's
serial allow-list is non-empty and contains the requested serial, whatever
the required scopes, granted scopes, ownership and sharing say. -/
theorem checkApiKeyPermission_denies_allowlisted_serial
    (userId serial : String) (requiredScopes permSerials permScopes :
      List String) (ownerOf : Option String)
    (sharedPerms : Option (List String))
    (hne : permSerials ≠ []) (hmem : serial ∈ permSerials) :
    checkApiKeyPermission userId serial requiredScopes permSerials permScopes
      ownerOf sharedPerms = false := by
  have hlen : 0 < permSerials.length := List.length_pos.mpr hne
  simp [checkApiKeyPermission, hlen, hmem]

/-- C9 witness: a key whose allow-list is exactly the requested serial, with
every scope granted and the user owning the device, is still denied. -/
theorem checkApiKeyPermission_denies_allowlisted_serial_witness :
    checkApiKeyPermission "u" "S" ["read"] ["S"] ["read", "write", "control"]
      (some "u") none = false :=
  checkApiKeyPermission_denies_allowlisted_serial "u" "S" ["read"] ["S"]
    ["read", "write", "control"] (some "u") none (by decide) (by decide)

/-- C10: when no row is stored for `(serial, objectKey)`, `upsertState`
inserts the incoming value verbatim — no deep merge, no fan-timer handling —
recording exactly the caller-supplied revision and timestamp, with
`updatedAt` set to the current server time. -/
theorem upsertState_insert_verbatim
    (store : StateStore) (serial objectKey : String) (rev ts : Int)
    (v : JVal) (now : Int) (h : getState store serial objectKey = none) :
    getState (upsertState store serial objectKey rev ts v now)
      serial objectKey = some ⟨rev, ts, v, now⟩ := by
  unfold upsertState
  rw [h]
  exact getState_append_none h _

/-- C10 witness: inserting into the empty store. -/
theorem upsertState_insert_verbatim_witness :
    getState (upsertState [] "A" "device.A" 7 1234 (.jobj [("x", .jnum 1)]) 99)
      "A" "device.A" = some ⟨7, 1234, .jobj [("x", .jnum 1)], 99⟩ :=
  upsertState_insert_verbatim [] "A" "device.A" 7 1234
    (.jobj [("x", .jnum 1)]) 99 rfl
